import Mathlib

deriving instance DecidableEq for Except

/-!
Shallow embedding of the python-driver-matrix test runner
(`src/run.py` and `src/main.py`).

External effects (git, subprocess, the filesystem) are modelled by explicit
inputs describing the outcome of each external call; the control flow of the
orchestrator is translated line by line from the source.
-/

/-- Result value of a Python function that can return `None` (by falling off
the end of the function body) or a `bool`.  `Run._apply_patch_files` in
`src/run.py` produces exactly these two shapes: `False` on a patch failure and
`None` when the loop completes. -/
inductive PyRet where
  | none
  | bool (b : Bool)
deriving DecidableEq

/-- Python truthiness of a `PyRet` value: `None` and `False` are falsy. -/
def truthy : PyRet → Bool
  | PyRet.none => false
  | PyRet.bool b => b

/-- The summary dictionary produced for one matrix cell (keys of
`FakeJunitResults.summary` and of `ProcessJUnit.summary`). -/
structure Summary where
  testcase : Nat
  failure : Nat
  error : Nat
  skipped : Nat
  ignored_in_analysis : Nat
deriving DecidableEq

/-- `FakeJunitResults(1, 1, 0, 0)` from `src/run.py`: the sentinel summary
published by `Run._publish_fake_result` (its constructor stores the four
arguments and a zero `ignored_in_analysis`). -/
def fakeJunitSummary : Summary := ⟨1, 1, 0, 0, 0⟩

/-- `Run._apply_patch_files` from `src/run.py`, as a function of the outcome of
each `patch -p1 -i file` invocation (in directory-listing order): the loop
returns `False` at the first failing patch and otherwise falls off the end of
the function, returning Python `None` (despite the `-> bool` annotation). -/
def apply_patch_files : List Bool → PyRet
  | [] => PyRet.none
  | ok :: rest => if ok then apply_patch_files rest else PyRet.bool false

/-- A key of the parsed `ignore.yaml` mapping: YAML keys are either strings
(such as `"general"`) or integers (protocol numbers). -/
inductive YKey where
  | str (s : String)
  | num (n : Int)
deriving DecidableEq

/-- A parsed `ignore.yaml` document: a mapping from keys to lists of test
names (association list; Python dict keys are unique). -/
abbrev YMap := List (YKey × List String)

/-- Python `dict.get`: the value at the key, if present. -/
def yget (m : YMap) (k : YKey) : Option (List String) :=
  (List.find? (fun kv => kv.1 = k) m).map (fun kv => kv.2)

/-- `Run._ignore_tests` from `src/run.py`.  The first argument models the
ignore file: `Option.none` when no `ignore.yaml` exists at the version folder,
`Option.some Option.none` when it exists but `yaml.safe_load` returns `None`
(empty document), and `Option.some (Option.some m)` when it parses to the
mapping `m`.  `Except.error ()` models the uncaught `AttributeError` raised by
`content.get(...)` when `content` is `None`.  The Python function builds a
`set`; the list returned here represents that set up to duplication, and the
lookup for the protocol scope uses the integer key, exactly as
`content.get(self._protocol, [])` does. -/
def ignore_tests : Option (Option YMap) → Int → Except Unit (List String)
  | Option.none, _ => Except.ok []
  | Option.some Option.none, _ => Except.error ()
  | Option.some (Option.some content), protocol =>
      Except.ok ((yget content (YKey.str "general")).getD []
        ++ (yget content (YKey.num protocol)).getD [])

/-- Status of one test case in the xunit report. -/
inductive CaseStatus where
  | pass
  | fail
  | error
  | skip
deriving DecidableEq

/-- One test case record of the xunit report. -/
structure TestCase where
  name : String
  status : CaseStatus
deriving DecidableEq

/-- The per-cell xunit report file: its structured case list together with its
raw text (the text is what `Run._process_output` rewrites). -/
structure ReportFile where
  cases : List TestCase
  text : String
deriving DecidableEq

/-- Modelled from the spec: one folding step of the `ProcessJUnit` summary
(module `processjunit`, not under `src/`): every case counts toward
`testcase`; a failing or erroring case whose identifier is in the ignore set
counts toward `ignored_in_analysis` instead of `failure`/`error`. -/
def aggStep (ignores : List String) (s : Summary) (c : TestCase) : Summary :=
  match c.status with
  | CaseStatus.pass => { s with testcase := s.testcase + 1 }
  | CaseStatus.fail =>
      if c.name ∈ ignores then
        { s with testcase := s.testcase + 1,
                 ignored_in_analysis := s.ignored_in_analysis + 1 }
      else { s with testcase := s.testcase + 1, failure := s.failure + 1 }
  | CaseStatus.error =>
      if c.name ∈ ignores then
        { s with testcase := s.testcase + 1,
                 ignored_in_analysis := s.ignored_in_analysis + 1 }
      else { s with testcase := s.testcase + 1, error := s.error + 1 }
  | CaseStatus.skip =>
      { s with testcase := s.testcase + 1, skipped := s.skipped + 1 }

/-- Modelled from the spec: the `ProcessJUnit` summary of a case list under an
ignore set (module `processjunit`, not under `src/`). -/
def aggregate (cases : List TestCase) (ignores : List String) : Summary :=
  List.foldl (aggStep ignores) ⟨0, 0, 0, 0, 0⟩ cases

/-- Python `str.replace pat repl` on character lists: scan left to right,
replace every non-overlapping occurrence of `pat`.  The fuel argument bounds
the recursion; with `fuel = length` and a non-empty pattern every occurrence
is replaced, since each step consumes at least one character. -/
def replaceAux (pat repl : List Char) : Nat → List Char → List Char
  | 0, l => l
  | _ + 1, [] => []
  | fuel + 1, c :: cs =>
      if List.isPrefixOf pat (c :: cs) then
        repl ++ replaceAux pat repl fuel (List.drop pat.length (c :: cs))
      else
        c :: replaceAux pat repl fuel cs

/-- Python `content.replace(pat, repl)` on strings. -/
def pyReplace (content pat repl : String) : String :=
  String.mk (replaceAux pat.toList repl.toList content.toList.length content.toList)

/-- The report rewrite performed by `Run._process_output` in `src/run.py`:
replace every occurrence of `classname="` in the file text with
`classname="version_<tag>_v<protocol>_`. -/
def rewrite_classnames (tag : String) (protocol : Int) (content : String) : String :=
  pyReplace content "classname=\""
    ("classname=\"version_" ++ tag ++ "_v" ++ toString protocol ++ "_")

/-- `Run._process_output` from `src/run.py`: construct the `ProcessJUnit`
summary for the report file, then rewrite the persisted file's class names
once.  `Option.none` for the report models a missing or malformed file, on
which the source raises uncaught (`open` raises `FileNotFoundError`;
`ProcessJUnit` raises a parse error per the spec, module not under `src/`) —
modelled as `Except.error ()`.  On success the result pairs the summary (from
the cases as parsed, before the rewrite) with the rewritten file text. -/
def process_output (tag : String) (protocol : Int) (report : Option ReportFile)
    (ignores : List String) : Except Unit (Summary × String) :=
  match report with
  | Option.none => Except.error ()
  | Option.some f =>
      Except.ok (aggregate f.cases ignores, rewrite_classnames tag protocol f.text)

/-- The per-cell states of the matrix runner, after the spec's state machine;
`CRASHED` marks an uncaught exception escaping `Run._run` (a state the spec's
machine does not have: no summary is recorded for the cell). -/
inductive CellState where
  | PENDING
  | CHECKED_OUT
  | PATCHED
  | DEPENDENCIES_READY
  | EXECUTED
  | AGGREGATED
  | FAILED
  | CRASHED
deriving DecidableEq

/-- The inputs of one matrix cell, together with the outcome of every external
call `Run._run` makes for it: the git checkout result, the result of each
`patch` invocation, the pip install result, the ignore file, and the report
file left by the test runner (`Option.none` when missing or malformed). -/
structure CellWorld where
  tag : String
  protocol : Int
  checkout_ok : Bool
  patch_results : List Bool
  install_ok : Bool
  ignore_file : Option (Option YMap)
  report : Option ReportFile
deriving DecidableEq

/-- The tail of `Run._run` from `src/run.py` (after checkout, patches and
requirements succeed): build the exclude list from `_ignore_tests` (which can
raise), run the tests, and assign `self._junit = self._process_output()` with
no exception handler — an error in either step escapes `Run.__init__` and no
summary is recorded (`Option.none`). -/
def run_tests_and_process (w : CellWorld) : CellState × Option Summary :=
  match ignore_tests w.ignore_file w.protocol with
  | Except.error _ => (CellState.CRASHED, Option.none)
  | Except.ok ign =>
      match process_output w.tag w.protocol w.report ign with
      | Except.error _ => (CellState.CRASHED, Option.none)
      | Except.ok (s, _) => (CellState.AGGREGATED, Option.some s)

/-- `Run._run` from `src/run.py`: each of the three guard phases publishes the
sentinel `FakeJunitResults(1, 1, 0, 0)` and stops when its check fails; note
the patch check is `if not self._apply_patch_files()`, i.e. it fires whenever
`truthy` of the returned value is `false`. -/
def run_cell (w : CellWorld) : CellState × Option Summary :=
  if w.checkout_ok = false then (CellState.FAILED, Option.some fakeJunitSummary)
  else if truthy (apply_patch_files w.patch_results) = false then
    (CellState.FAILED, Option.some fakeJunitSummary)
  else if w.install_ok = false then (CellState.FAILED, Option.some fakeJunitSummary)
  else run_tests_and_process w

/-- The matrix loop of `main` in `src/main.py`: construct `run.Run` for each
cell in order, collecting `result.summary`; an exception escaping the `Run`
constructor (no recorded summary) aborts the whole loop (`Except.error ()`). -/
def run_matrix : List CellWorld → Except Unit (List Summary)
  | [] => Except.ok []
  | w :: ws =>
      match (run_cell w).2 with
      | Option.none => Except.error ()
      | Option.some s => (run_matrix ws).map (fun rest => s :: rest)

/-- One step of the verdict loop of `main` in `src/main.py`:
`if result.summary['failure'] > 0 or result.summary['error']: status = 1`
(Python truthiness of the error count: nonzero). -/
def statusStep (st : Nat) (s : Summary) : Nat :=
  if 0 < s.failure ∨ s.error ≠ 0 then 1 else st

/-- The verdict loop of `main` in `src/main.py`: fold `statusStep` over the
collected summaries starting from `status = 0`; the result is passed to
`quit`. -/
def final_status (results : List Summary) : Nat :=
  List.foldl statusStep 0 results

/-- `main` from `src/main.py` end to end: run all cells, then compute the
exit status; `Except.error ()` if an uncaught exception aborted the loop. -/
def main_exit (ws : List CellWorld) : Except Unit Nat :=
  (run_matrix ws).map final_status

/-- The branch name `Run._checkout_branch` in `src/run.py` passes to
`git checkout`: `'{}-scylla'.format(self._tag)` when the driver type is
`'scylla'`, otherwise the tag itself. -/
def checkout_branch_name (python_driver_type tag : String) : String :=
  if python_driver_type = "scylla" then tag ++ "-scylla" else tag

/-- Python `tag.split("-", maxsplit=1)[0]` from `Run.__init__` in
`src/run.py`: the characters of the tag before the first `-`. -/
def stripTag (tag : String) : String :=
  String.mk (List.takeWhile (fun c => c ≠ '-') tag.toList)

/-- Python `str.split('.')` on a character list (no `maxsplit`). -/
def splitDots : List Char → List (List Char)
  | [] => [[]]
  | c :: cs =>
      if c = '.' then [] :: splitDots cs
      else
        match splitDots cs with
        | [] => [[c]]
        | p :: ps => (c :: p) :: ps

/-- Numeric value of a list of decimal digit characters. -/
def digitsToNat (l : List Char) : Nat :=
  List.foldl (fun n c => 10 * n + (c.toNat - 48)) 0 l

/-- One dot-separated component of a version string: a non-empty run of
decimal digits. -/
def parsePart (l : List Char) : Option Nat :=
  if !l.isEmpty && l.all Char.isDigit then Option.some (digitsToNat l) else Option.none

/-- `packaging.version.Version` restricted to its release tuple, the fragment
exercised by dotted numeric tags and version-named directories: `s` parses iff
every dot-separated component is a non-empty digit run; the value is the list
of numeric components (so `"2.0"` parses to `[2, 0]`).  Strings outside this
fragment are treated as unparseable. -/
def parseVersion (s : String) : Option (List Nat) :=
  let parts := (splitDots s.toList).map parsePart
  if parts.all Option.isSome then Option.some (parts.filterMap id) else Option.none

/-- The `packaging` order on release tuples: compare componentwise,
left-to-right, padding the shorter tuple with zeros (so `[2]` and `[2, 0]`
are equal). -/
def verLeB : List Nat → List Nat → Bool
  | [], _ => true
  | a :: as, [] => a == 0 && verLeB as []
  | a :: as, b :: bs => decide (a < b) || (a == b && verLeB as bs)

/-- Stable insertion into a non-increasing list: the new element goes before
the first element that is `≤` it. -/
def insertDesc (v : List Nat) : List (List Nat) → List (List Nat)
  | [] => [v]
  | w :: ws => if verLeB w v then v :: w :: ws else w :: insertDesc v ws

/-- Python `sorted(..., reverse=True)`: a stable non-increasing sort. -/
def sortDesc : List (List Nat) → List (List Nat)
  | [] => []
  | v :: vs => insertDesc v (sortDesc vs)

/-- The selection loop of `Run.__version_folder` in `src/run.py`: sort the
defined versions in descending order and return the first one `≤` the target
version. -/
def findVersionDir (tags : List (List Nat)) (target : List Nat) : Option (List Nat) :=
  List.find? (fun t => verLeB t target) (sortDesc tags)

/-- Length of the leading run of decimal digits. -/
def digitRun (l : List Char) : Nat := (List.takeWhile Char.isDigit l).length

/-- Backtracking matcher for the suffix `(\d+.)*\d+$` of the version pattern
of `Run.__version_folder` (`.` matches any character): either the whole rest
is a non-empty digit run, or some non-empty prefix of the leading digit run
followed by one arbitrary character is consumed and the remainder matches
again.  The fuel bounds the recursion; each step consumes at least two
characters, so `fuel = length` suffices. -/
def tailVP : Nat → List Char → Bool
  | 0, _ => false
  | fuel + 1, l =>
      (!l.isEmpty && l.all Char.isDigit) ||
      (List.range (digitRun l)).any
        (fun j => decide (j + 2 ≤ l.length) && tailVP fuel (List.drop (j + 2) l))

/-- `re.match` of the pattern `(\d+.)+\d+$` from `Run.__version_folder` in
`src/run.py` (anchored at the start; at least one `\d+.` group, then a final
digit run). -/
def versionPatternMatch (s : String) : Bool :=
  (List.range (digitRun s.toList)).any
    (fun j => decide (j + 2 ≤ s.toList.length)
      && tailVP s.toList.length (List.drop (j + 2) s.toList))

/-- Python `str(Version)` for a pure release tuple: the components joined
with dots. -/
def versionToString (v : List Nat) : String :=
  String.intercalate "." (v.map Nat.repr)

/-- `Run.__version_folder` from `src/run.py`, over the list of entries of the
`versions/<driver type>` directory.  A returned directory is identified by its
name (the path prefix is constant).  If the target tag fails to parse as a
version, fall back to the literally-named directory if it exists, else to
`'master'`.  Otherwise filter the entries through the version pattern, parse,
sort descending, and take the first `≤` the target; `Except.error ()` models
the uncaught `InvalidVersion` raised inside the `sorted(...)` generator when a
pattern-matching entry is outside the parseable fragment. -/
def version_folder (dirs : List String) (target_tag : String) : Except Unit (Option String) :=
  match parseVersion target_tag with
  | Option.none =>
      Except.ok (Option.some (if dirs.contains target_tag then target_tag else "master"))
  | Option.some target_version =>
      let names := dirs.filter versionPatternMatch
      if names.all (fun n => (parseVersion n).isSome) then
        Except.ok ((findVersionDir (names.filterMap parseVersion) target_version).map
          versionToString)
      else Except.error ()

/-- Version-folder resolution as performed for a `Run` object: `Run.__init__`
stores `tag.split("-", maxsplit=1)[0]` and `Run.version_folder` resolves that
stripped tag. -/
def resolve (dirs : List String) (tag : String) : Except Unit (Option String) :=
  version_folder dirs (stripTag tag)

/-! ### Helper lemmas -/

/-- `Run._apply_patch_files` never returns a truthy value: it returns `False`
on a failure and falls off the end (Python `None`) on success. -/
theorem apply_patch_files_falsy (ps : List Bool) : truthy (apply_patch_files ps) = false := by
  induction ps with
  | nil => rfl
  | cons ok rest ih =>
    cases ok with
    | false => rfl
    | true => exact ih

/-- A version tuple that is `≤` the empty tuple (all zeros) is `≤` every
tuple. -/
theorem verLeB_zeros {as : List Nat} (h : verLeB as [] = true) :
    ∀ cs, verLeB as cs = true := by
  induction as with
  | nil => intro cs; rfl
  | cons a as ih =>
    intro cs
    simp only [verLeB, Bool.and_eq_true, beq_iff_eq] at h
    obtain ⟨ha, hrest⟩ := h
    cases cs with
    | nil => simp [verLeB, ha, hrest]
    | cons c cs =>
      subst ha
      simp only [verLeB, Bool.or_eq_true, Bool.and_eq_true, decide_eq_true_eq, beq_iff_eq]
      rcases Nat.eq_zero_or_pos c with hc | hc
      · exact Or.inr ⟨hc.symm, ih hrest cs⟩
      · exact Or.inl hc

/-- Reflexivity of the version order. -/
theorem verLeB_refl (a : List Nat) : verLeB a a = true := by
  induction a with
  | nil => rfl
  | cons x xs ih => simp [verLeB, ih]

/-- Transitivity of the version order. -/
theorem verLeB_trans : ∀ {a b c : List Nat},
    verLeB a b = true → verLeB b c = true → verLeB a c = true := by
  intro a
  induction a with
  | nil => intro b c _ _; rfl
  | cons x xs ih =>
    intro b c h1 h2
    cases b with
    | nil => exact verLeB_zeros h1 c
    | cons y ys =>
      cases c with
      | nil =>
        simp only [verLeB, Bool.and_eq_true, beq_iff_eq] at h2 ⊢
        obtain ⟨hy, hys⟩ := h2
        subst hy
        simp only [verLeB, Bool.or_eq_true, Bool.and_eq_true, decide_eq_true_eq,
          beq_iff_eq] at h1
        rcases h1 with h1 | ⟨hxy, hxs⟩
        · omega
        · exact ⟨hxy, ih hxs hys⟩
      | cons z zs =>
        simp only [verLeB, Bool.or_eq_true, Bool.and_eq_true, decide_eq_true_eq,
          beq_iff_eq] at h1 h2 ⊢
        rcases h1 with h1 | ⟨hxy, hxs⟩
        · rcases h2 with h2 | ⟨hyz, hys⟩
          · exact Or.inl (Nat.lt_trans h1 h2)
          · exact Or.inl (hyz ▸ h1)
        · rcases h2 with h2 | ⟨hyz, hys⟩
          · exact Or.inl (hxy ▸ h2)
          · exact Or.inr ⟨hxy.trans hyz, ih hxs hys⟩

/-- Totality of the version order. -/
theorem verLeB_total (a b : List Nat) : verLeB a b = true ∨ verLeB b a = true := by
  induction a generalizing b with
  | nil => exact Or.inl rfl
  | cons x xs ih =>
    cases b with
    | nil => exact Or.inr rfl
    | cons y ys =>
      rcases Nat.lt_trichotomy x y with h | h | h
      · exact Or.inl (by simp [verLeB, h])
      · subst h
        rcases ih ys with h | h
        · exact Or.inl (by simp [verLeB, h])
        · exact Or.inr (by simp [verLeB, h])
      · exact Or.inr (by simp [verLeB, h])

/-- Membership in `insertDesc`. -/
theorem mem_insertDesc {x v : List Nat} {l : List (List Nat)} :
    x ∈ insertDesc v l ↔ x = v ∨ x ∈ l := by
  induction l with
  | nil => simp [insertDesc]
  | cons w ws ih =>
    simp only [insertDesc]
    by_cases h : verLeB w v = true
    · simp only [if_pos h, List.mem_cons]
    · simp only [if_neg h, List.mem_cons, ih]
      tauto

/-- `insertDesc` preserves the non-increasing pairwise order. -/
theorem pairwise_insertDesc {v : List Nat} {l : List (List Nat)}
    (hl : List.Pairwise (fun a b => verLeB b a = true) l) :
    List.Pairwise (fun a b => verLeB b a = true) (insertDesc v l) := by
  induction l with
  | nil => simp [insertDesc]
  | cons w ws ih =>
    rcases List.pairwise_cons.mp hl with ⟨hw, hws⟩
    simp only [insertDesc]
    by_cases h : verLeB w v = true
    · rw [if_pos h]
      refine List.pairwise_cons.mpr ⟨?_, hl⟩
      intro y hy
      rcases List.mem_cons.mp hy with rfl | hy
      · exact h
      · exact verLeB_trans (hw y hy) h
    · rw [if_neg h]
      refine List.pairwise_cons.mpr ⟨?_, ih hws⟩
      intro y hy
      rcases mem_insertDesc.mp hy with rfl | hy
      · exact (verLeB_total y w).resolve_right h
      · exact hw y hy

/-- `sortDesc` produces a non-increasing list. -/
theorem pairwise_sortDesc (l : List (List Nat)) :
    List.Pairwise (fun a b => verLeB b a = true) (sortDesc l) := by
  induction l with
  | nil => simp [sortDesc]
  | cons v vs ih => exact pairwise_insertDesc ih

/-- `sortDesc` preserves membership. -/
theorem mem_sortDesc {x : List Nat} {l : List (List Nat)} :
    x ∈ sortDesc l ↔ x ∈ l := by
  induction l with
  | nil => simp [sortDesc]
  | cons v vs ih => simp [sortDesc, mem_insertDesc, ih, List.mem_cons]

/-- In a non-increasing list, `find?` returns a greatest element among those
satisfying the predicate. -/
theorem find?_pairwise_best {p : List Nat → Bool} {l : List (List Nat)} {m : List Nat}
    (hl : List.Pairwise (fun a b => verLeB b a = true) l)
    (hf : List.find? p l = Option.some m) :
    p m = true ∧ ∀ x ∈ l, p x = true → verLeB x m = true := by
  induction l with
  | nil => simp at hf
  | cons h t ih =>
    rcases List.pairwise_cons.mp hl with ⟨hh, ht⟩
    by_cases hp : p h = true
    · rw [List.find?_cons_of_pos _ hp] at hf
      injection hf with hf
      subst hf
      refine ⟨hp, ?_⟩
      intro x hx _
      rcases List.mem_cons.mp hx with rfl | hx
      · exact verLeB_refl x
      · exact hh x hx
    · rw [List.find?_cons_of_neg _ (by simpa using hp)] at hf
      obtain ⟨hm, hrest⟩ := ih ht hf
      refine ⟨hm, ?_⟩
      intro x hx hpx
      rcases List.mem_cons.mp hx with rfl | hx
      · exact absurd hpx hp
      · exact hrest x hx hpx

/-- A successful `findVersionDir` returns a member of the input that is `≤`
the target and is greatest among the members `≤` the target. -/
theorem findVersionDir_spec {tags : List (List Nat)} {target m : List Nat}
    (h : findVersionDir tags target = Option.some m) :
    m ∈ tags ∧ verLeB m target = true ∧
      ∀ t ∈ tags, verLeB t target = true → verLeB t m = true := by
  simp only [findVersionDir] at h
  have hmem := List.mem_of_find?_eq_some h
  obtain ⟨hp, hbest⟩ := find?_pairwise_best (pairwise_sortDesc tags) h
  exact ⟨mem_sortDesc.mp hmem, hp, fun t ht hle => hbest t (mem_sortDesc.mpr ht) hle⟩

/-- When `findVersionDir` returns nothing, no input version is `≤` the
target. -/
theorem findVersionDir_none {tags : List (List Nat)} {target : List Nat}
    (h : findVersionDir tags target = Option.none) :
    ∀ t ∈ tags, verLeB t target = false := by
  simp only [findVersionDir] at h
  intro t ht
  have := List.find?_eq_none.mp h t (mem_sortDesc.mpr ht)
  simpa using this

/-- The verdict fold of `main` returns 1 exactly when some summary has a
positive failure count or a nonzero error count. -/
theorem foldl_statusStep (l : List Summary) (st : Nat) :
    List.foldl statusStep st l =
      if ∃ s ∈ l, 0 < s.failure ∨ s.error ≠ 0 then 1 else st := by
  induction l generalizing st with
  | nil => simp
  | cons s t ih =>
    rw [List.foldl_cons, ih]
    by_cases hs : 0 < s.failure ∨ s.error ≠ 0
    · simp [statusStep, hs]
    · simp [statusStep, hs]

/-! ### Claims -/

/-- Claim C1: the spec says that when checkout succeeds and every patch file
applies successfully (including zero patch files), the cell proceeds from the
patch phase to dependency installation and test execution.  The code violates
this: `_apply_patch_files` returns Python `None` on success (despite its
`-> bool` annotation), `not None` is truthy, so `_run` publishes the sentinel
summary and stops for every cell — here evaluated at a cell whose checkout
succeeds and whose version folder holds zero patch files. -/
theorem c1_patch_success_still_fails :
    (∀ ps : List Bool, truthy (apply_patch_files ps) = false) ∧
    run_cell ⟨"1.0", 3, true, [], true, Option.none, Option.some ⟨[], ""⟩⟩ =
      (CellState.FAILED, Option.some fakeJunitSummary) :=
  ⟨apply_patch_files_falsy, rfl⟩

/-- Claim C2: the spec requires a missing or malformed report to be recorded
as a failed cell, with the run continuing.  The code violates this:
`_process_output` raises on a missing report, `_run` assigns
`self._junit = self._process_output()` with no handler, so the exception
escapes and no summary is recorded — the outcome differs from the sentinel
`FAILED` outcome. -/
theorem c2_report_error_propagates :
    process_output "1.0" 3 Option.none [] = Except.error () ∧
    run_tests_and_process ⟨"1.0", 3, true, [], true, Option.none, Option.none⟩ =
      (CellState.CRASHED, Option.none) ∧
    (CellState.CRASHED, (Option.none : Option Summary)) ≠
      (CellState.FAILED, Option.some fakeJunitSummary) :=
  ⟨rfl, rfl, by decide⟩

/-- Claim C3: version resolution returns the directory with the greatest
version `≤` the target: a successful `findVersionDir` result is a member, is
`≤` the target, and dominates every member `≤` the target; a `none` result
means no member is `≤` the target; and on directories 1.0, 2.0, 3.0 the
resolver maps 2.5 to 2.0, 2.0 to exactly 2.0, and 0.5 to absent. -/
theorem c3_resolution_greatest_le :
    (∀ (tags : List (List Nat)) (target m : List Nat),
      findVersionDir tags target = Option.some m →
      m ∈ tags ∧ verLeB m target = true ∧
        ∀ t ∈ tags, verLeB t target = true → verLeB t m = true) ∧
    (∀ (tags : List (List Nat)) (target : List Nat),
      findVersionDir tags target = Option.none →
      ∀ t ∈ tags, verLeB t target = false) ∧
    version_folder ["1.0", "2.0", "3.0"] "2.5" = Except.ok (Option.some "2.0") ∧
    version_folder ["1.0", "2.0", "3.0"] "2.0" = Except.ok (Option.some "2.0") ∧
    version_folder ["1.0", "2.0", "3.0"] "0.5" = Except.ok Option.none :=
  ⟨fun _ _ _ h => findVersionDir_spec h, fun _ _ h => findVersionDir_none h,
    by decide, by decide, by decide⟩

/-- Witness for C3 at a concrete input: resolving target 2.0 over the single
directory 1.0 yields 1.0, which is `≤` the target. -/
theorem c3_resolution_greatest_le_witness : verLeB [1, 0] [2, 0] = true :=
  (c3_resolution_greatest_le.1 [[1, 0]] [2, 0] [1, 0] rfl).2.1

/-- Counterexample for claim C4: resolving the tag `3.24.7.1-x` is NOT the
same as resolving `3.24.7` — the stripped tag is `3.24.7.1`, and with a
directory for 3.24.7.1 present the two resolve differently. -/
theorem c4_strip_counterexample :
    resolve ["3.24.7", "3.24.7.1"] "3.24.7.1-x" ≠
      resolve ["3.24.7", "3.24.7.1"] "3.24.7" := by decide

/-- Claim C4 as amended: resolution first strips the build-qualifier suffix
(everything from the first `-`) and then behaves identically to resolving the
stripped tag; in particular resolving `3.24.7.1-x` behaves as resolving
`3.24.7.1`. -/
theorem c4_strip_amended :
    (∀ dirs tag, resolve dirs tag = version_folder dirs (stripTag tag)) ∧
    stripTag "3.24.7.1-x" = "3.24.7.1" ∧
    (∀ dirs, resolve dirs "3.24.7.1-x" = resolve dirs "3.24.7.1") := by
  refine ⟨fun _ _ => rfl, by decide, ?_⟩
  intro dirs
  show version_folder dirs (stripTag "3.24.7.1-x") =
    version_folder dirs (stripTag "3.24.7.1")
  rw [show stripTag "3.24.7.1-x" = stripTag "3.24.7.1" from by decide]

/-- Claim C5: the effective ignore set is the union of the `"general"` list
and the list under the protocol's integer key (an absent key contributes
nothing, a missing file yields the empty set, and a string-form protocol key
such as `"4"` is not consulted). -/
theorem c5_ignore_union :
    (∀ protocol, ignore_tests Option.none protocol = Except.ok []) ∧
    (∀ (content : YMap) (protocol : Int) (res : List String) (x : String),
      ignore_tests (Option.some (Option.some content)) protocol = Except.ok res →
      (x ∈ res ↔ x ∈ (yget content (YKey.str "general")).getD [] ∨
        x ∈ (yget content (YKey.num protocol)).getD [])) ∧
    ignore_tests (Option.some (Option.some [(YKey.str "4", ["t1"])])) 4 =
      Except.ok [] := by
  refine ⟨fun _ => rfl, ?_, rfl⟩
  intro content protocol res x h
  simp only [ignore_tests] at h
  injection h with h
  subst h
  exact List.mem_append

/-- Witness for C5 at a concrete input: with an ignore mapping holding only a
`"general"` entry, membership in the loaded set matches the union. -/
theorem c5_ignore_union_witness :
    ("g1" ∈ ["g1"] ↔
      "g1" ∈ (yget [(YKey.str "general", ["g1"])] (YKey.str "general")).getD [] ∨
      "g1" ∈ (yget [(YKey.str "general", ["g1"])] (YKey.num 4)).getD []) :=
  c5_ignore_union.2.1 [(YKey.str "general", ["g1"])] 4 ["g1"] "g1" rfl

/-- Claim C6: a cell whose checkout, patch application, or dependency
installation fails is recorded with the sentinel summary
`testcase=1, failure=1, error=0, skipped=0, ignored_in_analysis=0`, and the
matrix loop continues with the remaining cells. -/
theorem c6_setup_failure_sentinel :
    ∀ (w : CellWorld) (ws : List CellWorld),
      w.checkout_ok = false ∨ false ∈ w.patch_results ∨ w.install_ok = false →
      run_cell w = (CellState.FAILED, Option.some fakeJunitSummary) ∧
      fakeJunitSummary = ⟨1, 1, 0, 0, 0⟩ ∧
      run_matrix (w :: ws) = (run_matrix ws).map (fun rest => fakeJunitSummary :: rest) := by
  intro w ws _
  have hcell : run_cell w = (CellState.FAILED, Option.some fakeJunitSummary) := by
    by_cases h : w.checkout_ok = false
    · simp only [run_cell, if_pos h]
    · simp only [run_cell, if_neg h, if_pos (apply_patch_files_falsy w.patch_results)]
  refine ⟨hcell, rfl, ?_⟩
  simp only [run_matrix, hcell]

/-- Witness for C6 at a concrete input: a cell whose checkout fails. -/
theorem c6_setup_failure_sentinel_witness :
    run_cell ⟨"1.0", 3, false, [], true, Option.none, Option.none⟩ =
      (CellState.FAILED, Option.some fakeJunitSummary) :=
  (c6_setup_failure_sentinel ⟨"1.0", 3, false, [], true, Option.none, Option.none⟩
    [] (Or.inl rfl)).1

/-- Claim C7: the exit status computed by `main` is 1 when some summary has a
positive failure count or a nonzero (truthy) error count, and 0 when every
summary has zero failures and a zero error count. -/
theorem c7_exit_status :
    ∀ results : List Summary,
      ((∃ s ∈ results, 0 < s.failure ∨ s.error ≠ 0) → final_status results = 1) ∧
      ((∀ s ∈ results, s.failure = 0 ∧ s.error = 0) → final_status results = 0) := by
  intro results
  constructor
  · intro h
    simp only [final_status]
    rw [foldl_statusStep, if_pos h]
  · intro h
    have hneg : ¬∃ s ∈ results, 0 < s.failure ∨ s.error ≠ 0 := by
      rintro ⟨s, hs, hcase⟩
      obtain ⟨h1, h2⟩ := h s hs
      rcases hcase with hc | hc
      · omega
      · exact hc h2
    simp only [final_status]
    rw [foldl_statusStep, if_neg hneg]

/-- Witness for C7 at concrete inputs: the sentinel summary forces status 1;
the empty result list gives status 0. -/
theorem c7_exit_status_witness :
    final_status [fakeJunitSummary] = 1 ∧ final_status [] = 0 :=
  ⟨(c7_exit_status [fakeJunitSummary]).1
      ⟨fakeJunitSummary, by decide, Or.inl (by decide)⟩,
    (c7_exit_status []).2 (by simp)⟩

/-- Claim C8: the branch name passed to `git checkout` is the version tag with
the fixed suffix `-scylla` appended when the driver type is `scylla`, and the
version tag verbatim for every other driver type. -/
theorem c8_branch_name :
    (∀ tag, checkout_branch_name "scylla" tag = tag ++ "-scylla") ∧
    (∀ python_driver_type tag, python_driver_type ≠ "scylla" →
      checkout_branch_name python_driver_type tag = tag) := by
  constructor
  · intro tag
    simp [checkout_branch_name]
  · intro t tag h
    simp only [checkout_branch_name, if_neg h]

/-- Witness for C8 at a concrete input: a non-scylla driver type uses the tag
verbatim. -/
theorem c8_branch_name_witness :
    checkout_branch_name "cassandra" "3.25.0" = "3.25.0" :=
  c8_branch_name.2 "cassandra" "3.25.0" (by decide)

/-- Counterexample for claim C9: applying the classname rewrite to an
already-rewritten report text prefixes the case names a second time — the
rewrite step is not idempotent, refuting the claim's "does not prefix them a
second time". -/
theorem c9_rewrite_not_idempotent :
    rewrite_classnames "1.0" 3 (rewrite_classnames "1.0" 3 "classname=\"T\"") ≠
      rewrite_classnames "1.0" 3 "classname=\"T\"" := by decide

/-- Claim C9 as amended: `_process_output` applies the classname rewrite to
the report text exactly once, after parsing (the summary comes from the cases
as parsed, the file text from a single application of the rewrite); the
rewrite step itself is not idempotent, so it must never be re-run — applying
it to an already-prefixed text prefixes a second time. -/
theorem c9_rewrite_once :
    (∀ (tag : String) (protocol : Int) (f : ReportFile) (ign : List String),
      process_output tag protocol (Option.some f) ign =
        Except.ok (aggregate f.cases ign, rewrite_classnames tag protocol f.text)) ∧
    rewrite_classnames "2.0" 4 (rewrite_classnames "2.0" 4 "classname=\"a\"") ≠
      rewrite_classnames "2.0" 4 "classname=\"a\"" :=
  ⟨fun _ _ _ _ => rfl, by decide⟩

/-- Claim C10: when the ignore file exists but `yaml.safe_load` returns `None`
(empty document), `_ignore_tests` raises (`AttributeError` on
`content.get`) rather than returning the empty set; the empty set is returned
when the file is absent. -/
theorem c10_empty_yaml_raises :
    (∀ protocol, ignore_tests (Option.some Option.none) protocol = Except.error ()) ∧
    (∀ protocol, ignore_tests Option.none protocol = Except.ok []) :=
  ⟨fun _ => rfl, fun _ => rfl⟩
